import Mathlib

/- Verification development for the headline deduplication, clustering and
ranking engine of `src/app/api/headlines/route.ts`.  Every definition below is a
shallow embedding of the correspondingly named function in that file:
JavaScript floating-point numbers are modelled as exact rationals, JS `Set` /
`Map` values as insertion-ordered duplicate-free lists (so `length` is `size`),
the ambient clock `Date.now()` as an explicit integer parameter `now` (epoch
milliseconds), and JS strings as Lean strings restricted to the ASCII range the
engine manipulates. -/

attribute [local semireducible] Rat.mul Rat.add Rat.sub Rat.inv Rat.ofScientific

/-! ### Character and string helpers -/

/-- Whitespace as matched by the `\s` regex class and `String.prototype.trim`
for the ASCII inputs the engine handles. -/
def isWsChar (c : Char) : Bool :=
  c == ' ' || c == '\t' || c == '\n' || c == '\r'

/-- ASCII `toLowerCase` on a single character. -/
def asciiLowerChar (c : Char) : Char :=
  if 65 ≤ c.toNat && c.toNat ≤ 90 then Char.ofNat (c.toNat + 32) else c

/-- JS `String.prototype.toLowerCase`, restricted to ASCII letters. -/
def asciiLower (s : String) : String :=
  String.mk (s.data.map asciiLowerChar)

/-- A character matched by the `[a-z0-9]` class (the input is lowercased before
this is ever tested). -/
def isTokenChar (c : Char) : Bool :=
  (97 ≤ c.toNat && c.toNat ≤ 122) || (48 ≤ c.toNat && c.toNat ≤ 57)

/-- An ASCII letter, as allowed at the start of a URL scheme. -/
def isAsciiLetter (c : Char) : Bool :=
  (97 ≤ c.toNat && c.toNat ≤ 122) || (65 ≤ c.toNat && c.toNat ≤ 90)

/-- JS `String.prototype.endsWith`. -/
def strEndsWith (s suf : String) : Bool :=
  decide (List.drop (s.data.length - suf.data.length) s.data = suf.data)

/-- JS `slice(0, -n)`: drop the last `n` characters. -/
def strDropRight (s : String) (n : Nat) : String :=
  String.mk (s.data.take (s.data.length - n))

/-- JS `String.prototype.trim` (ASCII whitespace). -/
def trimWs (s : String) : String :=
  String.mk (((s.data.dropWhile isWsChar).reverse.dropWhile isWsChar).reverse)

/-- The `replace(/\/+$/g, '')` idiom: remove every trailing slash. -/
def stripTrailingSlashes (s : String) : String :=
  String.mk ((s.data.reverse.dropWhile (fun c => c == '/')).reverse)

/-! ### URL normalizer (route.ts `normalizeUrlForComparison`, lines 1162-1176) -/

/-- Split a character list at the first occurrence of `"://"`, returning the
scheme part and the remainder after the separator. -/
def splitOnSchemeSep : List Char → Option (List Char × List Char)
  | [] => none
  | c :: cs =>
    if c == ':' && cs.take 2 = ['/', '/'] then some ([], cs.drop 2)
    else
      match splitOnSchemeSep cs with
      | some (pre, post) => some (c :: pre, post)
      | none => none

/-- Modelled from the source's `new URL(url)`: the WHATWG parser, restricted to
hierarchical `scheme://[userinfo@]host[:port]/path[?query][#hash]` URLs (the
only shapes the feeds produce).  It returns the pieces the source reads back,
namely the scheme, the `hostname` (userinfo and port removed) and the
`pathname` (query and fragment removed).  Every other input shape is treated as
a parse failure, which in the source takes the same `catch` fallback branch. -/
def parseUrlParts (url : String) : Option (String × String × String) :=
  match splitOnSchemeSep url.data with
  | none => none
  | some (scheme, rest) =>
    if !scheme.isEmpty && scheme.all isAsciiLetter then
      let authority := rest.takeWhile (fun c => !(c == '/' || c == '?' || c == '#'))
      let afterAuthority := rest.drop authority.length
      let hostPort := (authority.reverse.takeWhile (fun c => !(c == '@'))).reverse
      let host := hostPort.takeWhile (fun c => !(c == ':'))
      if host.isEmpty then none
      else
        let path := afterAuthority.takeWhile (fun c => !(c == '?' || c == '#'))
        some (String.mk scheme, String.mk host, String.mk path)
    else none

/-- Direct translation of `normalizeUrlForComparison` (route.ts:1162): on parse
success, scheme + `"://"` + hostname + trailing-slash-stripped path, all
lowercased; on failure, the trimmed, trailing-slash-stripped, lowercased raw
string.  (The source lowercases the final assembled string, so a single
lowercase pass at the end is exact.) -/
def normalizeUrlForComparison (url : String) : String :=
  if url = "" then ""
  else
    match parseUrlParts url with
    | some (scheme, host, path) =>
      asciiLower (stripTrailingSlashes (scheme ++ "://" ++ host ++ stripTrailingSlashes path))
    | none => asciiLower (stripTrailingSlashes (trimWs url))

/-! ### Text normalization and token builder (route.ts 1178-1266) -/

/-- Single pass collecting the maximal runs of `[a-z0-9]` characters;
`run` holds the current run, reversed. -/
def alnumRunsGo : List Char → List Char → List String
  | [], run => if run.isEmpty then [] else [String.mk run.reverse]
  | c :: cs, run =>
    if isTokenChar c then alnumRunsGo cs (c :: run)
    else if run.isEmpty then alnumRunsGo cs [] else String.mk run.reverse :: alnumRunsGo cs []

/-- The maximal runs of `[a-z0-9]` characters of a character list, in order.
Splitting a string on the complement of this class is exactly what the chain
`replace(/[^a-z0-9\s]+/g, ' ')` + `split(/\s+/)` (with empty pieces discarded)
and what `replace(/[^a-z0-9]+/g, ' ').trim()` compute. -/
def alnumRuns (l : List Char) : List String :=
  alnumRunsGo l []

/-- Direct translation of `normalizeHeadlineText` (route.ts:1178): lowercase,
collapse every maximal run of non-`[a-z0-9]` characters to a single space, and
trim; equivalently, join the maximal alphanumeric runs with single spaces. -/
def normalizeHeadlineText (text : String) : String :=
  String.intercalate " " (alnumRuns (asciiLower text).data)

def MAX_TOKEN_COUNT : Nat := 64
def TOKEN_MIN_LENGTH_DEFAULT : Nat := 3
def TOKEN_MIN_LENGTH_STRICT : Nat := 2

/-- The dedupe mode of `DedupeOptions` (route.ts:1107). -/
inductive DedupeMode
  | default
  | strict
  deriving DecidableEq, Repr

def getTokenMinLength (mode : DedupeMode) : Nat :=
  match mode with
  | .strict => TOKEN_MIN_LENGTH_STRICT
  | .default => TOKEN_MIN_LENGTH_DEFAULT

/-- The possessive/contraction strip `base.replace(/'(?:s|re|d)$/g, '')`
(route.ts:1192); at most one of the three alternatives can match at the end of
the string, so the global replace removes at most one occurrence. -/
def possessiveStrip (t : String) : String :=
  if strEndsWith t "'s" then strDropRight t 2
  else if strEndsWith t "'re" then strDropRight t 3
  else if strEndsWith t "'d" then strDropRight t 2
  else t

/-- The `ies`/`ied` → `y` collapse of route.ts:1194-1198, which fires only when
the token is longer than 4 characters. -/
def iesCollapse (b : String) : String :=
  if strEndsWith b "ies" && decide (4 < b.length) then strDropRight b 3 ++ "y"
  else if strEndsWith b "ied" && decide (4 < b.length) then strDropRight b 3 ++ "y"
  else b

/-- The fixed suffix list of route.ts:1200-1216, in source order. -/
def stemSuffixes : List String :=
  ["ations", "ation", "ments", "ment", "izing", "ingly", "ing", "ers", "er",
   "ied", "ies", "ed", "ly", "es", "s"]

/-- A suffix is stripped only when it matches and the remaining stem keeps at
least 3 characters (route.ts:1220). -/
def eligibleSuffix (t suf : String) : Bool :=
  strEndsWith t suf && decide (3 ≤ t.length - suf.length)

/-- The suffix-stripping loop of route.ts:1219-1224: strip the first suffix of
the list that matches with an eligible remainder, then stop. -/
def stripSuffixFrom (t : String) (suffixes : List String) : String :=
  match suffixes.find? (eligibleSuffix t) with
  | some suf => strDropRight t suf.length
  | none => t

/-- The full stemmed variant computed by `normalizeTokenVariants` in strict
mode: possessive strip, guarded `ies`/`ied` collapse, then the suffix loop. -/
def stemToken (t : String) : String :=
  stripSuffixFrom (iesCollapse (possessiveStrip t)) stemSuffixes

/-- JS `Set.prototype.add` on an insertion-ordered duplicate-free list. -/
def insertUnique (l : List String) (s : String) : List String :=
  if s ∈ l then l else l ++ [s]

/-- Collect a list into a JS `Set` (insertion order, duplicates dropped). -/
def dedupKeepOrder (l : List String) : List String :=
  l.foldl insertUnique []

/-- Direct translation of `normalizeTokenVariants` (route.ts:1186): in default
mode the token itself; in strict mode the set `{token, base, stemmed}` with
empty strings filtered out (`filter(Boolean)`). -/
def normalizeTokenVariants (t : String) (mode : DedupeMode) : List String :=
  match mode with
  | .default => [t]
  | .strict =>
    let base := iesCollapse (possessiveStrip t)
    (dedupKeepOrder [t, base, stripSuffixFrom base stemSuffixes]).filter (fun v => !(v == ""))

/-- The length of the match of `/https?:\/\/\S+/` at the head of the character
list, if the regex matches there. -/
def matchHttpLen (l : List Char) : Option Nat :=
  if l.take 8 = "https://".data then
    let w := (l.drop 8).takeWhile (fun c => !isWsChar c)
    if 1 ≤ w.length then some (8 + w.length) else none
  else if l.take 7 = "http://".data then
    let w := (l.drop 7).takeWhile (fun c => !isWsChar c)
    if 1 ≤ w.length then some (7 + w.length) else none
  else none

/-- Fuel-driven scan for `stripUrls`; every URL match consumes at least one
character, so fuel equal to the list length always suffices. -/
def stripUrlsGo : Nat → List Char → List Char
  | 0, _ => []
  | _, [] => []
  | fuel + 1, c :: cs =>
    match matchHttpLen (c :: cs) with
    | some n => ' ' :: stripUrlsGo fuel ((c :: cs).drop n)
    | none => c :: stripUrlsGo fuel cs

/-- The `replace(/https?:\/\/\S+/g, ' ')` pass of `buildTokenSet`
(route.ts:1243): each URL match is replaced by a single space and scanning
resumes after the match. -/
def stripUrls (l : List Char) : List Char :=
  stripUrlsGo l.length l

/-- The raw token list of `buildTokenSet` (route.ts:1241-1246): lowercase,
strip URLs, split on the complement of `[a-z0-9]`, keep tokens of at least the
mode's minimum length. -/
def rawTokensOf (title description : String) (mode : DedupeMode) : List String :=
  let combined := title ++ " " ++ description
  (alnumRuns (stripUrls (asciiLower combined).data)).filter
    (fun t => decide (getTokenMinLength mode ≤ t.length))

/-- The insertion loop of `buildTokenSet` (route.ts:1248-1263): insert variants
in order, returning as soon as the set reaches `MAX_TOKEN_COUNT` entries. -/
def capInsert : List String → List String → List String
  | acc, [] => acc
  | acc, v :: vs =>
    let acc2 := insertUnique acc v
    if MAX_TOKEN_COUNT ≤ acc2.length then acc2 else capInsert acc2 vs

/-- Direct translation of `buildTokenSet` (route.ts:1234). -/
def buildTokenSet (title description : String) (mode : DedupeMode) : List String :=
  let minLength := getTokenMinLength mode
  let variants := (rawTokensOf title description mode).flatMap
    (fun t => (normalizeTokenVariants t mode).filter (fun v => decide (minLength ≤ v.length)))
  capInsert [] variants

/-! ### Similarity evaluators (route.ts 1268-1364) -/

/-- Direct translation of `computeTokenOverlapRatio` (route.ts:1268); token
sets are insertion-ordered duplicate-free lists, so `length` is `Set.size`.
(The name avoids the original `Ratio` tail for lexical reasons only.) -/
def computeTokenOverlap (a b : List String) : ℚ :=
  if a.length = 0 || b.length = 0 then 0
  else
    let smaller := if a.length ≤ b.length then a else b
    let larger := if a.length ≤ b.length then b else a
    let intersection := smaller.countP (fun t => decide (t ∈ larger))
    (intersection : ℚ) / ((max 1 smaller.length : Nat) : ℚ)

def TOKEN_OVERLAP_THRESHOLD_DEFAULT : ℚ := 7/10
def TOKEN_OVERLAP_THRESHOLD_STRICT : ℚ := 11/20
def STRICT_TITLE_SIMILARITY_THRESHOLD : ℚ := 22/25

def getTokenOverlapThreshold (mode : DedupeMode) : ℚ :=
  match mode with
  | .strict => TOKEN_OVERLAP_THRESHOLD_STRICT
  | .default => TOKEN_OVERLAP_THRESHOLD_DEFAULT

/-- The inner `j` scan of the Jaro matching loop (route.ts:1313-1324): the
first index `j` in `[j, j + fuel)` whose `b`-character is unmatched and equals
`ai`. -/
def jwFindMatchGo (bl : List Char) (bm : List Bool) (ai : Char) : Nat → Nat → Option Nat
  | 0, _ => none
  | fuel + 1, j =>
    if bm.getD j true = false && decide (bl.get? j = some ai) then some j
    else jwFindMatchGo bl bm ai fuel (j + 1)

/-- The matching window scan for one `a`-index (route.ts:1309-1325). -/
def jwFindMatch (bl : List Char) (bm : List Bool) (ai : Char) (start fin : Nat) : Option Nat :=
  jwFindMatchGo bl bm ai (fin - start) start

/-- The outer matching loop of route.ts:1308-1325, walking the characters of
`a` with index `i`, threading the `bMatches` flags; returns the `aMatches`
flags (aligned with `a`), the final `bMatches` flags, and the match count. -/
def jwMatchGo (bl : List Char) (md : Nat) : List Char → Nat → List Bool → List Bool × List Bool × Nat
  | [], _, bm => ([], bm, 0)
  | ai :: rest, i, bm =>
    match jwFindMatch bl bm ai (i - md) (min (i + md + 1) bl.length) with
    | some j =>
      let r := jwMatchGo bl md rest (i + 1) (bm.set j true)
      (true :: r.1, r.2.1, r.2.2 + 1)
    | none =>
      let r := jwMatchGo bl md rest (i + 1) bm
      (false :: r.1, r.2.1, r.2.2)

/-- The characters of `l` at the positions flagged `true`. -/
def maskedChars (l : List Char) (flags : List Bool) : List Char :=
  ((l.zip flags).filter (fun p => p.2)).map (fun p => p.1)

/-- The common-prefix counter of route.ts:1356-1360, with the cap (4) as
fuel. -/
def commonPfxLen : List Char → List Char → Nat → Nat
  | a :: as, b :: bs, fuel + 1 => if a == b then 1 + commonPfxLen as bs fuel else 0
  | _, _, _ => 0

/-- Direct translation of `computeJaroWinklerSimilarity` (route.ts:1292).  The
source's `k`-pointer walk that counts transpositions equals comparing the
matched characters of `a` and `b` position by position (each `a`-match marks
exactly one `b`-match, so the two matched subsequences have equal length),
which is how the count is expressed here. -/
def computeJaroWinklerSimilarity (a b : String) : ℚ :=
  if a = "" || b = "" then 0
  else if a = b then 1
  else
    let al := a.data
    let bl := b.data
    let md := max al.length bl.length / 2 - 1
    let r := jwMatchGo bl md al 0 (List.replicate bl.length false)
    let m := r.2.2
    if m = 0 then 0
    else
      let t : ℚ := (((maskedChars al r.1).zip (maskedChars bl r.2.1)).countP
        (fun p => !(p.1 == p.2)) : Nat)
      let mq : ℚ := (m : Nat)
      let jaro := (mq / (al.length : Nat) + mq / (bl.length : Nat) + (mq - t / 2) / mq) / 3
      let pfx := commonPfxLen al bl 4
      min 1 (jaro + (pfx : Nat) * (1/10) * (1 - jaro))

/-! ### Data model (route.ts 1085-1160) -/

/-- A related article kept as evidence on a cluster (route.ts:1085). -/
structure RelatedArticle where
  title : String
  description : String
  url : String
  source : String
  publishedAt : String
  deriving DecidableEq, Repr

/-- A normalized input record (route.ts `NormalizedHeadline`).  The optional
provenance fields are modelled as strings with `""` for absent, matching how
the source only ever tests their truthiness. -/
structure NormalizedHeadline where
  title : String
  description : String
  url : String
  source : String
  publishedAt : String
  keyword : String := ""
  queryUsed : String := ""
  searchQuery : String := ""
  deriving DecidableEq, Repr

/-- An accepted cluster: primary record plus derived comparison data and the
related articles merged into it (route.ts:1097-1105). -/
structure HeadlineCandidate where
  data : NormalizedHeadline
  normalizedUrl : String
  normalizedTitle : String
  normalizedDescription : String
  tokenSet : List String
  related : List RelatedArticle
  deriving DecidableEq, Repr

/-- Per-run dedupe configuration (route.ts:1107-1110); `none` models an absent
`excludedUrls` set. -/
structure DedupeOptions where
  mode : DedupeMode
  excludedUrls : Option (List String) := none
  deriving DecidableEq, Repr

/-! ### Near-duplicate classifier and aggregator (route.ts 1366-1490) -/

/-- Direct translation of `areHeadlinesNearDuplicate` (route.ts:1366). -/
def areHeadlinesNearDuplicate (a b : HeadlineCandidate) (o : DedupeOptions) : Bool :=
  if a.normalizedUrl ≠ "" ∧ b.normalizedUrl ≠ "" ∧ a.normalizedUrl = b.normalizedUrl then true
  else if a.normalizedTitle ≠ "" ∧ b.normalizedTitle ≠ "" ∧ a.normalizedTitle = b.normalizedTitle then true
  else if a.normalizedDescription ≠ "" ∧ b.normalizedDescription ≠ "" ∧
      a.normalizedDescription = b.normalizedDescription then true
  else if getTokenOverlapThreshold o.mode ≤ computeTokenOverlap a.tokenSet b.tokenSet then true
  else if o.mode = .strict ∧
      STRICT_TITLE_SIMILARITY_THRESHOLD ≤
        computeJaroWinklerSimilarity a.normalizedTitle b.normalizedTitle then true
  else false

/-- Direct translation of `createHeadlineCandidate` (route.ts:1409). -/
def createHeadlineCandidate (headline : NormalizedHeadline) (options : DedupeOptions) : HeadlineCandidate :=
  { data := headline
    normalizedUrl := normalizeUrlForComparison headline.url
    normalizedTitle := normalizeHeadlineText headline.title
    normalizedDescription := normalizeHeadlineText headline.description
    tokenSet := buildTokenSet headline.title headline.description options.mode
    related := [] }

/-- The exact-URL guard inside the merge branch (route.ts:1440-1450): the
incoming record is discarded, not recorded, when its normalized URL equals the
cluster's primary URL or one of its related URLs. -/
def urlGuardHits (existing : HeadlineCandidate) (normalizedCandidateUrl : String) : Bool :=
  normalizedCandidateUrl ≠ "" ∧
    (normalizedCandidateUrl = existing.normalizedUrl ∨
      existing.related.any (fun r => normalizeUrlForComparison r.url = normalizedCandidateUrl))

/-- The merge/enrich branch of `addHeadlineIfUnique` (route.ts:1452-1484):
backfill a strictly longer description, backfill empty provenance fields,
append the incoming record as a related article, and union the token sets. -/
def mergeIntoExisting (existing : HeadlineCandidate) (candidate : NormalizedHeadline)
    (enriched : HeadlineCandidate) : HeadlineCandidate :=
  let d0 := existing.data
  let longer := candidate.description ≠ "" ∧ d0.description.length < candidate.description.length
  { existing with
    data :=
      { d0 with
        description := if longer then candidate.description else d0.description
        keyword := if candidate.keyword ≠ "" ∧ d0.keyword = "" then candidate.keyword else d0.keyword
        queryUsed := if candidate.queryUsed ≠ "" ∧ d0.queryUsed = "" then candidate.queryUsed else d0.queryUsed
        searchQuery :=
          if candidate.searchQuery ≠ "" ∧ d0.searchQuery = "" then candidate.searchQuery
          else d0.searchQuery }
    normalizedDescription :=
      if longer then normalizeHeadlineText candidate.description else existing.normalizedDescription
    related := existing.related ++
      [{ title := candidate.title, description := candidate.description, url := candidate.url,
         source := candidate.source, publishedAt := candidate.publishedAt }]
    tokenSet := enriched.tokenSet.foldl insertUnique existing.tokenSet }

/-- The `for (const existing of aggregated)` scan of `addHeadlineIfUnique`
(route.ts:1438-1486): `some` returns the updated cluster list when a
near-duplicate cluster was found (the loop stops there), `none` means no
cluster matched. -/
def scanClusters (enriched : HeadlineCandidate) (candidate : NormalizedHeadline)
    (o : DedupeOptions) : List HeadlineCandidate → Option (List HeadlineCandidate)
  | [] => none
  | existing :: rest =>
    if areHeadlinesNearDuplicate existing enriched o then
      if urlGuardHits existing (normalizeUrlForComparison candidate.url) then some (existing :: rest)
      else some (mergeIntoExisting existing candidate enriched :: rest)
    else
      match scanClusters enriched candidate o rest with
      | some updated => some (existing :: updated)
      | none => none

/-- The excluded-URL test of route.ts:1430-1435: a JS `Set.has` behind the
truthiness guards on the URL and on the optional set. -/
def isExcludedUrl (o : DedupeOptions) (u : String) : Bool :=
  u ≠ "" &&
    (match o.excludedUrls with
     | some s => decide (u ∈ s)
     | none => false)

/-- Direct translation of `addHeadlineIfUnique` (route.ts:1423): returns the
updated cluster list together with the source's boolean result (`true` iff a
new cluster was appended). -/
def addHeadlineIfUnique (aggregated : List HeadlineCandidate) (candidate : NormalizedHeadline)
    (o : DedupeOptions) : List HeadlineCandidate × Bool :=
  let enriched := createHeadlineCandidate candidate o
  if isExcludedUrl o enriched.normalizedUrl then (aggregated, false)
  else
    match scanClusters enriched candidate o aggregated with
    | some updated => (updated, false)
    | none => (aggregated ++ [enriched], true)

/-- The arrival-order aggregation loop of the handler (route.ts:2071-2480):
every incoming record is folded into the growing cluster list with
`addHeadlineIfUnique`. -/
def aggregateHeadlines (records : List NormalizedHeadline) (o : DedupeOptions) : List HeadlineCandidate :=
  records.foldl (fun agg r => (addHeadlineIfUnique agg r o).1) []

/-! ### Date parsing (the source's `Date.parse`) -/

def isDigitChar (c : Char) : Bool :=
  48 ≤ c.toNat && c.toNat ≤ 57

def digitVal (c : Char) : Nat :=
  c.toNat - 48

def isLeapYear (y : Nat) : Bool :=
  (y % 4 == 0 && y % 100 != 0) || y % 400 == 0

/-- Days from 1970-01-01 to the start of year `y` (for `y ≥ 1970`). -/
def daysBeforeYear (y : Nat) : Nat :=
  (List.range (y - 1970)).foldl (fun acc k => acc + (if isLeapYear (1970 + k) then 366 else 365)) 0

def monthLengths (leap : Bool) : List Nat :=
  [31, if leap then 29 else 28, 31, 30, 31, 30, 31, 31, 30, 31, 30, 31]

/-- Days from the start of year `y` to the start of its month `mo` (1-based). -/
def daysBeforeMonth (y mo : Nat) : Nat :=
  ((monthLengths (isLeapYear y)).take (mo - 1)).foldl (· + ·) 0

def daysInMonth (y mo : Nat) : Nat :=
  (monthLengths (isLeapYear y)).getD (mo - 1) 0

/-- Modelled from the source's use of `Date.parse` (route.ts:1500), restricted
to UTC ISO-8601 timestamps `YYYY-MM-DDTHH:MM:SSZ` with year ≥ 1970, which
parse to their epoch-millisecond value; every other string is treated as
unparsable.  The engine only branches on parse success and on differences of
the parsed values, so narrowing the accepted formats preserves its
behaviour. -/
def parseDateMs (s : String) : Option Int :=
  match s.data with
  | [y1, y2, y3, y4, '-', a1, a2, '-', d1, d2, 'T', h1, h2, ':', i1, i2, ':', c1, c2, 'Z'] =>
    if [y1, y2, y3, y4, a1, a2, d1, d2, h1, h2, i1, i2, c1, c2].all isDigitChar then
      let y := 1000 * digitVal y1 + 100 * digitVal y2 + 10 * digitVal y3 + digitVal y4
      let mo := 10 * digitVal a1 + digitVal a2
      let d := 10 * digitVal d1 + digitVal d2
      let h := 10 * digitVal h1 + digitVal h2
      let mi := 10 * digitVal i1 + digitVal i2
      let sec := 10 * digitVal c1 + digitVal c2
      if 1970 ≤ y && 1 ≤ mo && mo ≤ 12 && 1 ≤ d && d ≤ daysInMonth y mo &&
          h ≤ 23 && mi ≤ 59 && sec ≤ 59 then
        some ((((((daysBeforeYear y + daysBeforeMonth y mo + (d - 1)) * 24 + h) * 60 + mi) * 60
          + sec) * 1000 : Nat) : Int)
      else none
    else none
  | _ => none

/-! ### Ranker (route.ts 1492-1701) -/

def RANKING_RECENCY_WEIGHT : ℚ := 45/100
def RANKING_SOURCE_WEIGHT : ℚ := 20/100
def RANKING_TOPIC_WEIGHT : ℚ := 20/100
def RANKING_CLUSTER_WEIGHT : ℚ := 25/100
def CLUSTER_SIZE_FULL_SCORE : Nat := 8
def CLUSTER_SOURCES_FULL_SCORE : Nat := 5

/-- Direct translation of `computeRecencyScore` (route.ts:1492); `Date.now()`
is the explicit parameter `now` (epoch ms) and the `Number.isFinite` guard is
dropped because rationals are always finite.  Returns `(score, ageHours)`,
with `none` for the source's `null` age. -/
def computeRecencyScore (now : Int) (publishedAt : String) : ℚ × Option ℚ :=
  if publishedAt = "" then (0, none)
  else
    match parseDateMs publishedAt with
    | none => (0, none)
    | some parsed =>
      let ageHours : ℚ := max 0 (((now - parsed : Int) : ℚ) / (1000 * 60 * 60))
      let clamped := min ageHours 72
      (1 - clamped / 72, some ageHours)

/-- Direct translation of `computeSourceDiversityScore` (route.ts:1513);
occurrence counts are naturals, so the `occurrences <= 0` guard is the zero
case. -/
def computeSourceDiversityScore (occurrences : Nat) : ℚ :=
  if occurrences = 0 then 0 else 1 / (occurrences : ℚ)

/-- Direct translation of `computeTopicCoverageScore` (route.ts:1524); the
source returns the same value as both `score` and `ratio`, so a single value
is returned here. -/
def computeTopicCoverageScore (tokenSet : List String) (tokenFrequency : String → Nat) : ℚ :=
  if tokenSet.length = 0 then 0
  else
    ((tokenSet.countP (fun t => decide (tokenFrequency t ≤ 1)) : Nat) : ℚ) /
      ((max 1 tokenSet.length : Nat) : ℚ)

/-- The `source.trim().toLowerCase() || 'unknown'` key used for both the
cluster-support sources and the source-frequency map. -/
def sourceKeyOfString (s : String) : String :=
  let k := asciiLower (trimWs s)
  if k = "" then "unknown" else k

/-- Direct translation of `computeClusterSupportScore` (route.ts:1543):
`(score, clusterSize, clusterUniqueSources)`. -/
def computeClusterSupportScore (candidate : HeadlineCandidate) : ℚ × Nat × Nat :=
  let clusterSize := max 1 (candidate.related.length + 1)
  let sources := candidate.related.foldl
    (fun acc a => insertUnique acc (sourceKeyOfString a.source))
    (insertUnique [] (sourceKeyOfString candidate.data.source))
  let clusterUniqueSources := sources.length
  let normalizedSize : ℚ :=
    if CLUSTER_SIZE_FULL_SCORE ≤ 1 then (if 1 < clusterSize then 1 else 0)
    else min 1 (((clusterSize : ℚ) - 1) / ((CLUSTER_SIZE_FULL_SCORE : ℚ) - 1))
  let normalizedSources : ℚ :=
    if CLUSTER_SOURCES_FULL_SCORE ≤ 1 then (if 1 < clusterUniqueSources then 1 else 0)
    else min 1 (((clusterUniqueSources : ℚ) - 1) / ((CLUSTER_SOURCES_FULL_SCORE : ℚ) - 1))
  (min 1 ((normalizedSize + normalizedSources) / 2), clusterSize, clusterUniqueSources)

/-- The four ranking components (route.ts:1112-1117). -/
structure HeadlineRankingComponents where
  recency : ℚ
  sourceDiversity : ℚ
  topicCoverage : ℚ
  clusterSupport : ℚ
  deriving DecidableEq, Repr

/-- The `details` block of the ranking metadata (route.ts:1122-1128); the
source's `uniqueTokenRatio` field is named `uniqueTokenShare` here for lexical
reasons only. -/
structure RankingDetails where
  ageHours : Option ℚ
  sourceOccurrences : Nat
  uniqueTokenShare : ℚ
  clusterSize : Nat
  clusterUniqueSources : Nat
  deriving DecidableEq, Repr

/-- The ranking metadata attached to each cluster (route.ts:1119-1130). -/
structure HeadlineRankingMetadata where
  score : ℚ
  components : HeadlineRankingComponents
  details : RankingDetails
  reasons : List String
  deriving DecidableEq, Repr

/-- A ranked cluster as returned by `rankHeadlineCandidates` (route.ts:1132). -/
structure RankedHeadlineCandidate where
  candidate : HeadlineCandidate
  ranking : HeadlineRankingMetadata
  deriving DecidableEq, Repr

/-- A scored cluster before sorting, carrying its arrival index
(route.ts:1675-1679). -/
structure ScoredHeadlineCandidate where
  candidate : HeadlineCandidate
  ranking : HeadlineRankingMetadata
  index : Nat
  deriving DecidableEq, Repr

/-- Direct translation of `buildRankingReasons` (route.ts:1585); the pushes
are realised as list concatenation in the same order. -/
def buildRankingReasons (metadata : HeadlineRankingMetadata) : List String :=
  (match metadata.details.ageHours with
   | none => []
   | some _ =>
     if (75:ℚ)/100 ≤ metadata.components.recency then ["Published within the last 18 hours"]
     else if (50:ℚ)/100 ≤ metadata.components.recency then ["Published recently"]
     else if metadata.components.recency ≤ 10/100 then ["Older coverage"]
     else []) ++
  (if (75:ℚ)/100 ≤ metadata.components.sourceDiversity then ["Unique source in this set"]
   else if metadata.components.sourceDiversity ≤ 25/100 then ["Source appears multiple times"]
   else []) ++
  (if (60:ℚ)/100 ≤ metadata.components.topicCoverage then ["Adds distinct topic details"]
   else if metadata.components.topicCoverage ≤ 20/100 then ["Overlaps heavily with other articles"]
   else []) ++
  (if (60:ℚ)/100 ≤ metadata.components.clusterSupport then ["Covered by many outlets"]
   else if (30:ℚ)/100 ≤ metadata.components.clusterSupport then ["Multiple supporting reports"]
   else if metadata.details.clusterSize ≤ 1 then ["Limited supporting coverage"]
   else [])

/-- The value the `sourceFrequency` map of `rankHeadlineCandidates`
(route.ts:1628-1638) stores for a key: the number of candidates whose source
key equals it (0 when the key is absent). -/
def sourceFreq (candidates : List HeadlineCandidate) (key : String) : Nat :=
  (candidates.filter (fun c => decide (sourceKeyOfString c.data.source = key))).length

/-- The value the `tokenFrequency` map stores for a token: the number of
candidates whose token set contains it (each candidate's set is duplicate-free,
so each candidate increments the counter at most once). -/
def tokenFreq (candidates : List HeadlineCandidate) (t : String) : Nat :=
  (candidates.filter (fun c => decide (t ∈ c.tokenSet))).length

/-- The scoring step of `rankHeadlineCandidates` (route.ts:1640-1673) for one
candidate; `sourceFrequency.get(key) ?? 1` equals `max 1 (sourceFreq ...)`
because a stored count is at least 1 and an absent key yields 1. -/
def scoreCandidate (now : Int) (candidates : List HeadlineCandidate)
    (c : HeadlineCandidate) : HeadlineRankingMetadata :=
  let sourceOccurrences := max 1 (sourceFreq candidates (sourceKeyOfString c.data.source))
  let recency := computeRecencyScore now c.data.publishedAt
  let sourceScore := computeSourceDiversityScore sourceOccurrences
  let topicScore := computeTopicCoverageScore c.tokenSet (tokenFreq candidates)
  let clusterScore := computeClusterSupportScore c
  let md : HeadlineRankingMetadata :=
    { score := recency.1 * RANKING_RECENCY_WEIGHT + sourceScore * RANKING_SOURCE_WEIGHT +
        topicScore * RANKING_TOPIC_WEIGHT + clusterScore.1 * RANKING_CLUSTER_WEIGHT
      components :=
        { recency := recency.1, sourceDiversity := sourceScore,
          topicCoverage := topicScore, clusterSupport := clusterScore.1 }
      details :=
        { ageHours := recency.2, sourceOccurrences := sourceOccurrences,
          uniqueTokenShare := topicScore, clusterSize := clusterScore.2.1,
          clusterUniqueSources := clusterScore.2.2 }
      reasons := [] }
  { md with reasons := buildRankingReasons md }

/-- Ascending comparison of ages where an unknown age is
`Number.POSITIVE_INFINITY` (route.ts:1689-1691). -/
def ageLtOpt : Option ℚ → Option ℚ → Bool
  | some x, some y => decide (x < y)
  | some _, none => true
  | none, _ => false

/-- The comparator passed to `scored.sort` (route.ts:1682-1698), expressed as
a before-or-equal relation: `rankLE a b = true` iff the comparator does not
place `b` strictly before `a` (higher score first, then smaller normalized
age, then smaller arrival index). -/
def rankLE (a b : ScoredHeadlineCandidate) : Bool :=
  if b.ranking.score < a.ranking.score then true
  else if a.ranking.score < b.ranking.score then false
  else if ageLtOpt a.ranking.details.ageHours b.ranking.details.ageHours then true
  else if ageLtOpt b.ranking.details.ageHours a.ranking.details.ageHours then false
  else decide (a.index ≤ b.index)

def insertLe {α : Type} (le : α → α → Bool) (x : α) : List α → List α
  | [] => [x]
  | y :: ys => if le x y then x :: y :: ys else y :: insertLe le x ys

/-- Insertion sort by a boolean before-or-equal relation.  `rankLE` is a
linear order on the scored entries (their arrival indices are distinct), so
the sorted permutation is unique and any correct sorting algorithm — in
particular the ECMAScript `Array.prototype.sort` the source uses — produces
exactly this list. -/
def sortByLe {α : Type} (le : α → α → Bool) : List α → List α
  | [] => []
  | x :: xs => insertLe le x (sortByLe le xs)

/-- The `scored` list of `rankHeadlineCandidates` (route.ts:1640-1680): every
candidate scored against the whole pool, tagged with its arrival index. -/
def scoredCandidates (now : Int) (candidates : List HeadlineCandidate) :
    List ScoredHeadlineCandidate :=
  candidates.enum.map (fun p =>
    { candidate := p.2, ranking := scoreCandidate now candidates p.2,
      index := p.1 })

/-- Direct translation of `rankHeadlineCandidates` (route.ts:1621): score
every candidate against the whole pool, sort, and drop the internal index. -/
def rankHeadlineCandidates (now : Int) (candidates : List HeadlineCandidate) :
    List RankedHeadlineCandidate :=
  if candidates.length = 0 then []
  else
    (sortByLe rankLE (scoredCandidates now candidates)).map
      (fun sc => { candidate := sc.candidate, ranking := sc.ranking })

/-! ### Response builder (route.ts 1703-1727 and 2541-2543) -/

/-- An entry of the handler's `headlines` payload (route.ts:1717-1725);
`relatedArticles` is `none` when the cluster has no related articles. -/
structure HeadlineResponseEntry where
  title : String
  description : String
  url : String
  source : String
  publishedAt : String
  relatedArticles : Option (List RelatedArticle)
  ranking : HeadlineRankingMetadata
  deriving DecidableEq, Repr

/-- Direct translation of `buildHeadlineResponses` (route.ts:1703). -/
def buildHeadlineResponses (ranked : List RankedHeadlineCandidate) : List HeadlineResponseEntry :=
  if ranked.length = 0 then []
  else
    ranked.map (fun entry =>
      { title := entry.candidate.data.title
        description := entry.candidate.data.description
        url := entry.candidate.data.url
        source := entry.candidate.data.source
        publishedAt := entry.candidate.data.publishedAt
        relatedArticles :=
          if 0 < entry.candidate.related.length then some entry.candidate.related else none
        ranking := entry.ranking })

/-- The handler's final ranking step (route.ts:2541-2543): rank the full
aggregated pool, truncate to the caller's limit, project to the response
shape. -/
def topRankedHeadlines (now : Int) (candidates : List HeadlineCandidate) (limit : Nat) :
    List HeadlineResponseEntry :=
  buildHeadlineResponses ((rankHeadlineCandidates now candidates).take limit)

/-- The engine's single conceptual entry point (spec §6): aggregate the raw
records in arrival order, rank, truncate, project. -/
def rankAndDeduplicate (records : List NormalizedHeadline) (o : DedupeOptions)
    (now : Int) (limit : Nat) : List HeadlineResponseEntry :=
  topRankedHeadlines now (aggregateHeadlines records o) limit

/-! ### Claim-level specification definitions -/

/-- The five-way disjunction of spec §4.4 exactly as claim C1 words it. -/
def nearDuplicateSpec (a b : HeadlineCandidate) (o : DedupeOptions) : Prop :=
  (a.normalizedUrl = b.normalizedUrl ∧ a.normalizedUrl ≠ "" ∧ b.normalizedUrl ≠ "") ∨
  (a.normalizedTitle = b.normalizedTitle ∧ a.normalizedTitle ≠ "" ∧ b.normalizedTitle ≠ "") ∨
  (a.normalizedDescription = b.normalizedDescription ∧
    a.normalizedDescription ≠ "" ∧ b.normalizedDescription ≠ "") ∨
  ((match o.mode with | .strict => (11:ℚ)/20 | .default => (7:ℚ)/10) ≤
    computeTokenOverlap a.tokenSet b.tokenSet) ∨
  (o.mode = .strict ∧
    (22:ℚ)/25 ≤ computeJaroWinklerSimilarity a.normalizedTitle b.normalizedTitle)

/-- The source's suffix list reordered by decreasing length (ties keep their
source order).  A string has at most one suffix of each length, so scanning
this list front to back strips exactly the longest eligible suffix. -/
def stemSuffixesByLength : List String :=
  ["ations", "ation", "ments", "izing", "ingly", "ment", "ing", "ers", "ied",
   "ies", "er", "ed", "ly", "es", "s"]

/-- The `ies`/`ied` → `y` collapse without any length condition, exactly as
claim C5 words it. -/
def iesCollapseUnguarded (b : String) : String :=
  if strEndsWith b "ies" then strDropRight b 3 ++ "y"
  else if strEndsWith b "ied" then strDropRight b 3 ++ "y"
  else b

/-- The stemming algorithm exactly as claim C5 words it: collapse a trailing
`ies`/`ied` to `y`, then strip the longest matching suffix whose removal
leaves a stem of at least 3 characters. -/
def claimStemmedVariant (t : String) : String :=
  stripSuffixFrom (iesCollapseUnguarded t) stemSuffixesByLength

/-- Claim C5 as amended: the possessive strip first, the collapse guarded by
token length > 4 as in the source, then the longest eligible suffix strip. -/
def amendedStemmedVariant (t : String) : String :=
  stripSuffixFrom (iesCollapse (possessiveStrip t)) stemSuffixesByLength

/-- The frame conditions of claim C7 for one cluster across one
`addHeadlineIfUnique` call with incoming record `r`: primary identity fields
unchanged, non-empty provenance fields never overwritten, description changed
only for a strictly longer incoming description. -/
def primaryFramePreserved (r : NormalizedHeadline) (c c' : HeadlineCandidate) : Prop :=
  c'.data.title = c.data.title ∧
  c'.data.url = c.data.url ∧
  c'.data.source = c.data.source ∧
  c'.data.publishedAt = c.data.publishedAt ∧
  (c.data.keyword ≠ "" → c'.data.keyword = c.data.keyword) ∧
  (c.data.queryUsed ≠ "" → c'.data.queryUsed = c.data.queryUsed) ∧
  (c.data.searchQuery ≠ "" → c'.data.searchQuery = c.data.searchQuery) ∧
  (c'.data.description ≠ c.data.description →
    c.data.description.length < r.description.length)

/-- The per-entry bounds of claim C10: every component in `[0, 1]` and the
total score in `[0, 11/10]`. -/
def scoreBoundsCheck (e : RankedHeadlineCandidate) : Bool :=
  decide (0 ≤ e.ranking.components.recency ∧ e.ranking.components.recency ≤ 1 ∧
    0 ≤ e.ranking.components.sourceDiversity ∧ e.ranking.components.sourceDiversity ≤ 1 ∧
    0 ≤ e.ranking.components.topicCoverage ∧ e.ranking.components.topicCoverage ≤ 1 ∧
    0 ≤ e.ranking.components.clusterSupport ∧ e.ranking.components.clusterSupport ≤ 1 ∧
    0 ≤ e.ranking.score ∧ e.ranking.score ≤ 11/10)

/-- A fully corroborated cluster (8 members from 8 distinct sources, published
exactly at the reference time `345600000` = 1970-01-05T00:00:00Z): every
ranking component evaluates to 1, so its total score is the full 11/10. -/
def demoSupportCandidate : HeadlineCandidate :=
  { data := { title := "alpha", description := "", url := "", source := "s0",
              publishedAt := "1970-01-05T00:00:00Z" }
    normalizedUrl := "", normalizedTitle := "alpha", normalizedDescription := ""
    tokenSet := ["alpha"]
    related := (List.range 7).map (fun i =>
      { title := "t", description := "", url := "",
        source := "s" ++ toString (i + 1), publishedAt := "" }) }

/-! ### Theorems -/

/-- Claim C1: for every pair of headline candidates and every dedupe options
value, `areHeadlinesNearDuplicate` returns true iff at least one of the five
conditions of spec §4.4 holds: equal non-empty normalized URLs, titles or
descriptions, token overlap at or above the mode's threshold (7/10 default,
11/20 strict), or — in strict mode only — Jaro-Winkler title similarity at or
above 22/25.  The check order is short-circuit only; the predicate is the
logical OR of the five conditions. -/
theorem areHeadlinesNearDuplicate_iff_spec (a b : HeadlineCandidate) (o : DedupeOptions) :
    areHeadlinesNearDuplicate a b o = true ↔ nearDuplicateSpec a b o := by
  obtain ⟨mode, excluded⟩ := o
  cases mode <;>
  · unfold areHeadlinesNearDuplicate nearDuplicateSpec getTokenOverlapThreshold
      TOKEN_OVERLAP_THRESHOLD_DEFAULT TOKEN_OVERLAP_THRESHOLD_STRICT
      STRICT_TITLE_SIMILARITY_THRESHOLD
    dsimp only
    constructor
    · intro h
      split_ifs at h with h1 h2 h3 h4 h5
      · exact Or.inl ⟨h1.2.2, h1.1, h1.2.1⟩
      · exact Or.inr (Or.inl ⟨h2.2.2, h2.1, h2.2.1⟩)
      · exact Or.inr (Or.inr (Or.inl ⟨h3.2.2, h3.1, h3.2.1⟩))
      · exact Or.inr (Or.inr (Or.inr (Or.inl h4)))
      · first
          | exact Or.inr (Or.inr (Or.inr (Or.inr h5)))
          | exact Or.inr (Or.inr (Or.inr (Or.inr ⟨rfl, h5.2⟩)))
          | exact h5.1.elim
    · intro h
      split_ifs with h1 h2 h3 h4 h5
      any_goals rfl
      rcases h with h | h | h | h | h
      · exact absurd ⟨h.2.1, h.2.2, h.1⟩ h1
      · exact absurd ⟨h.2.1, h.2.2, h.1⟩ h2
      · exact absurd ⟨h.2.1, h.2.2, h.1⟩ h3
      · exact absurd h h4
      · first
          | exact absurd h h5
          | exact absurd h.1 (by simp)

/-- Claim C9: the engine is a pure function of its input — the records in
arrival order, the dedupe options, the clock value and the limit — so running
it twice on the same input produces identical output order and scores.  In
this embedding the ambient `Date.now()` clock is the explicit `now` parameter
(the source reads it during ranking); with the clock fixed, determinism is
definitional because no other state exists. -/
theorem rankAndDeduplicate_deterministic (records : List NormalizedHeadline)
    (o : DedupeOptions) (now : Int) (limit : Nat) :
    rankAndDeduplicate records o now limit = rankAndDeduplicate records o now limit := rfl

/-- Claim C6 (amended): a record whose normalized URL is non-empty and present
in the run's `excludedUrls` is dropped silently — `addHeadlineIfUnique`
returns the cluster list completely unchanged (no new cluster, no related
article, no enrichment) and reports `false`. -/
theorem addHeadlineIfUnique_excluded (aggregated : List HeadlineCandidate)
    (r : NormalizedHeadline) (o : DedupeOptions) (s : List String)
    (hs : o.excludedUrls = some s) (hmem : normalizeUrlForComparison r.url ∈ s)
    (hne : normalizeUrlForComparison r.url ≠ "") :
    addHeadlineIfUnique aggregated r o = (aggregated, false) := by
  have hex : isExcludedUrl o (createHeadlineCandidate r o).normalizedUrl = true := by
    unfold isExcludedUrl createHeadlineCandidate
    simp [hs, hne, hmem]
  unfold addHeadlineIfUnique
  simp [hex]

theorem addHeadlineIfUnique_excluded_witness :
    addHeadlineIfUnique []
      { title := "hello world", description := "", url := "https://x.com/a",
        source := "A", publishedAt := "" }
      { mode := .default, excludedUrls := some ["https://x.com/a"] } = ([], false) :=
  addHeadlineIfUnique_excluded [] _ _ ["https://x.com/a"] rfl (by decide) (by decide)

/-- Claim C6 as stated is false when the excluded set contains the empty
normalized URL: this record's URL normalizes to `""`, which is present in
`excludedUrls`, yet the record is not dropped — it creates a cluster, because
the source's guard `enriched.normalizedUrl && ...` rejects falsy URLs before
consulting the set. -/
theorem excluded_empty_url_counterexample :
    normalizeUrlForComparison "" ∈ [""] ∧
    (addHeadlineIfUnique []
      { title := "hello world", description := "", url := "", source := "A", publishedAt := "" }
      { mode := .default, excludedUrls := some [""] }).1.length = 1 := by decide

theorem jwFindMatchGo_none {bl : List Char} {bm : List Bool} {ai : Char}
    (h : ai ∉ bl) : ∀ fuel j, jwFindMatchGo bl bm ai fuel j = none := by
  intro fuel
  induction fuel with
  | zero => intro j; rfl
  | succ n ih =>
    intro j
    unfold jwFindMatchGo
    have hg : ¬(bl.get? j = some ai) := fun hj => h (List.get?_mem hj)
    rw [if_neg]
    · exact ih (j + 1)
    · simp only [Bool.and_eq_true, decide_eq_true_eq]
      rintro ⟨-, hj⟩
      exact hg hj

theorem jwMatchGo_count_zero {bl : List Char} (md : Nat) :
    ∀ (al : List Char) (i : Nat) (bm : List Bool),
      (∀ c ∈ al, c ∉ bl) → (jwMatchGo bl md al i bm).2.2 = 0 := by
  intro al
  induction al with
  | nil => intro i bm _; rfl
  | cons ai rest ih =>
    intro i bm hd
    unfold jwMatchGo jwFindMatch
    rw [jwFindMatchGo_none (hd ai (by simp))]
    exact ih (i + 1) bm (fun c hc => hd c (by simp [hc]))

/-- Claim C8 (amended): the Jaro-Winkler similarity returns 1 for identical
non-empty strings, and 0 whenever the two strings share no characters at all
(in particular whenever either input is empty, including the identical empty
pair). -/
theorem computeJaroWinklerSimilarity_one_zero :
    (∀ a : String, a ≠ "" → computeJaroWinklerSimilarity a a = 1) ∧
    (∀ a b : String, (∀ c ∈ a.data, c ∉ b.data) → computeJaroWinklerSimilarity a b = 0) := by
  constructor
  · intro a ha
    unfold computeJaroWinklerSimilarity
    simp [ha]
  · intro a b hdisj
    by_cases ha : a = ""
    · unfold computeJaroWinklerSimilarity
      simp [ha]
    by_cases hb : b = ""
    · unfold computeJaroWinklerSimilarity
      simp [ha, hb]
    have hne : a ≠ b := by
      intro he
      have hd : a.data ≠ [] := fun hnil => ha (String.ext hnil)
      obtain ⟨c, cs, hcons⟩ := List.exists_cons_of_ne_nil hd
      exact hdisj c (by simp [hcons]) (by rw [← he]; simp [hcons])
    have hm : (jwMatchGo b.data (max a.length b.length / 2 - 1) a.data 0
        (List.replicate b.length false)).2.2 = 0 :=
      jwMatchGo_count_zero _ a.data 0 _ (fun c hc hcb => hdisj c hc hcb)
    unfold computeJaroWinklerSimilarity
    simp [ha, hb, hne, hm]

theorem computeJaroWinklerSimilarity_one_zero_witness :
    computeJaroWinklerSimilarity "ab" "ab" = 1 ∧ computeJaroWinklerSimilarity "ab" "cd" = 0 :=
  ⟨computeJaroWinklerSimilarity_one_zero.1 "ab" (by decide),
   computeJaroWinklerSimilarity_one_zero.2 "ab" "cd" (by decide)⟩

/-- Claim C8 as stated is false at the identical pair of empty strings: the
source's falsiness check `!a || !b` fires before the equality check, so two
identical empty inputs yield 0, not 1. -/
theorem jaroWinkler_empty_counterexample :
    computeJaroWinklerSimilarity "" "" = 0 ∧ computeJaroWinklerSimilarity "" "" ≠ 1 := by decide

theorem strEndsWith_iff {s suf : String} : strEndsWith s suf = true ↔ suf.data <:+ s.data := by
  unfold strEndsWith
  rw [decide_eq_true_iff]
  constructor
  · intro h
    rw [List.suffix_iff_eq_drop]
    exact h.symm
  · intro h
    exact (List.suffix_iff_eq_drop.mp h).symm

theorem suffix_comparable {s u v : String}
    (hu : strEndsWith s u = true) (hv : strEndsWith s v = true) :
    u.data <:+ v.data ∨ v.data <:+ u.data := by
  exact List.suffix_or_suffix_of_suffix (strEndsWith_iff.mp hu) (strEndsWith_iff.mp hv)

theorem eligible_incompat {u v : String}
    (hnuv : ¬(u.data <:+ v.data)) (hnvu : ¬(v.data <:+ u.data)) (t : String) :
    ¬(eligibleSuffix t u = true ∧ eligibleSuffix t v = true) := by
  rintro ⟨hu, hv⟩
  unfold eligibleSuffix at hu hv
  rcases Bool.and_eq_true_iff.mp hu with ⟨hu1, -⟩
  rcases Bool.and_eq_true_iff.mp hv with ⟨hv1, -⟩
  rcases suffix_comparable hu1 hv1 with h | h
  · exact hnuv h
  · exact hnvu h

theorem find?_swap {α : Type} (p : α → Bool) (xs : List α) (a b : α) (l : List α)
    (h : ¬(p a = true ∧ p b = true)) :
    List.find? p (xs ++ a :: b :: l) = List.find? p (xs ++ b :: a :: l) := by
  induction xs with
  | nil =>
    simp only [List.nil_append, List.find?_cons]
    cases ha : p a <;> cases hb : p b <;> simp_all
  | cons x xs ih =>
    simp only [List.cons_append, List.find?_cons]
    cases p x <;> simp [ih]

/-- The source-order suffix loop equals the longest-eligible-suffix strip: the
only suffix pairs that the source order lists short-before-long can never both
match the end of the same token. -/
theorem stripSuffixFrom_eq_byLength (t : String) :
    stripSuffixFrom t stemSuffixes = stripSuffixFrom t stemSuffixesByLength := by
  have h1 := eligible_incompat (u := "ment") (v := "izing") (by decide) (by decide) t
  have h2 := eligible_incompat (u := "ment") (v := "ingly") (by decide) (by decide) t
  have h3 := eligible_incompat (u := "er") (v := "ied") (by decide) (by decide) t
  have h4 := eligible_incompat (u := "er") (v := "ies") (by decide) (by decide) t
  have hfind : stemSuffixes.find? (eligibleSuffix t) =
      stemSuffixesByLength.find? (eligibleSuffix t) := by
    calc List.find? (eligibleSuffix t)
          (["ations", "ation", "ments"] ++ "ment" :: "izing" ::
            ["ingly", "ing", "ers", "er", "ied", "ies", "ed", "ly", "es", "s"])
        = List.find? (eligibleSuffix t)
          (["ations", "ation", "ments"] ++ "izing" :: "ment" ::
            ["ingly", "ing", "ers", "er", "ied", "ies", "ed", "ly", "es", "s"]) :=
          find?_swap _ _ _ _ _ h1
      _ = List.find? (eligibleSuffix t)
          (["ations", "ation", "ments", "izing"] ++ "ment" :: "ingly" ::
            ["ing", "ers", "er", "ied", "ies", "ed", "ly", "es", "s"]) := rfl
      _ = List.find? (eligibleSuffix t)
          (["ations", "ation", "ments", "izing"] ++ "ingly" :: "ment" ::
            ["ing", "ers", "er", "ied", "ies", "ed", "ly", "es", "s"]) :=
          find?_swap _ _ _ _ _ h2
      _ = List.find? (eligibleSuffix t)
          (["ations", "ation", "ments", "izing", "ingly", "ment", "ing", "ers"] ++
            "er" :: "ied" :: ["ies", "ed", "ly", "es", "s"]) := rfl
      _ = List.find? (eligibleSuffix t)
          (["ations", "ation", "ments", "izing", "ingly", "ment", "ing", "ers"] ++
            "ied" :: "er" :: ["ies", "ed", "ly", "es", "s"]) :=
          find?_swap _ _ _ _ _ h3
      _ = List.find? (eligibleSuffix t)
          (["ations", "ation", "ments", "izing", "ingly", "ment", "ing", "ers", "ied"] ++
            "er" :: "ies" :: ["ed", "ly", "es", "s"]) := rfl
      _ = List.find? (eligibleSuffix t)
          (["ations", "ation", "ments", "izing", "ingly", "ment", "ing", "ers", "ied"] ++
            "ies" :: "er" :: ["ed", "ly", "es", "s"]) :=
          find?_swap _ _ _ _ _ h4
  unfold stripSuffixFrom
  rw [hfind]

/-- Claim C5 (amended): in strict mode the stemmed variant of a raw token is
computed by the possessive strip, then the `ies`/`ied` → `y` collapse guarded
by token length > 4, then stripping the longest suffix of the fixed list whose
removal leaves a stem of at least 3 characters.  (The source realises the
longest-eligible strip as a first-match loop over its suffix list; the two
agree for every token.) -/
theorem stemToken_eq_amendedSpec (t : String) : stemToken t = amendedStemmedVariant t := by
  unfold stemToken amendedStemmedVariant
  exact stripSuffixFrom_eq_byLength _

/-- Claim C5 as stated is false at the raw token `ties`: the source collapses
`ies`/`ied` only for tokens longer than 4 characters, so it stems `ties` to
`tie` (via the final `s` suffix), while the claim's unguarded algorithm
collapses it to `ty`; accordingly the strict-mode variant set of `ties` is
`[ties, tie]`, not `[ties, ty]`. -/
theorem stemToken_ties_counterexample :
    stemToken "ties" = "tie" ∧ claimStemmedVariant "ties" = "ty" ∧
      stemToken "ties" ≠ claimStemmedVariant "ties" ∧
      normalizeTokenVariants "ties" .strict = ["ties", "tie"] := by decide

theorem areHeadlinesNearDuplicate_self (c : HeadlineCandidate) (o : DedupeOptions)
    (h : c.normalizedUrl ≠ "" ∨ c.normalizedTitle ≠ "" ∨ c.normalizedDescription ≠ "") :
    areHeadlinesNearDuplicate c c o = true := by
  unfold areHeadlinesNearDuplicate
  rcases h with h | h | h <;> split_ifs <;> simp_all

/-- Claim C2 (amended): feeding the same record twice (when its normalized URL
is not excluded and the record is similar to itself, i.e. some normalized
field is non-empty) yields exactly one cluster, never two.  The cluster's
related-article list records the second occurrence only when the record's
normalized URL is empty; with a non-empty URL the exact-URL guard of
route.ts:1440-1450 silently drops the second occurrence, leaving the related
list empty. -/
theorem addTwice_single_cluster (r : NormalizedHeadline) (o : DedupeOptions)
    (hex : isExcludedUrl o (normalizeUrlForComparison r.url) = false)
    (hself : normalizeUrlForComparison r.url ≠ "" ∨ normalizeHeadlineText r.title ≠ "" ∨
      normalizeHeadlineText r.description ≠ "") :
    ((addHeadlineIfUnique (addHeadlineIfUnique [] r o).1 r o).1).map (fun c => c.related.length) =
      [if normalizeUrlForComparison r.url = "" then 1 else 0] := by
  have hn : (createHeadlineCandidate r o).normalizedUrl = normalizeUrlForComparison r.url := rfl
  have hd : areHeadlinesNearDuplicate (createHeadlineCandidate r o)
      (createHeadlineCandidate r o) o = true := by
    apply areHeadlinesNearDuplicate_self
    rcases hself with h | h | h
    · exact Or.inl h
    · exact Or.inr (Or.inl h)
    · exact Or.inr (Or.inr h)
  have h1 : addHeadlineIfUnique [] r o = ([createHeadlineCandidate r o], true) := by
    simp [addHeadlineIfUnique, hn, hex, scanClusters]
  have hr : (createHeadlineCandidate r o).related = [] := rfl
  by_cases hu : normalizeUrlForComparison r.url = ""
  · have hg : urlGuardHits (createHeadlineCandidate r o) (normalizeUrlForComparison r.url) = false := by
      simp [urlGuardHits, hu]
    rw [hu] at hex hg
    rw [h1]
    simp [addHeadlineIfUnique, hn, hex, scanClusters, hd, hg, hu, mergeIntoExisting, hr]
  · have hg : urlGuardHits (createHeadlineCandidate r o) (normalizeUrlForComparison r.url) = true := by
      simp [urlGuardHits, hu, hn]
    rw [h1]
    simp [addHeadlineIfUnique, hn, hex, scanClusters, hd, hg, hu, hr]

theorem addTwice_single_cluster_witness :
    ((addHeadlineIfUnique
        (addHeadlineIfUnique []
          { title := "alpha news", description := "", url := "", source := "A", publishedAt := "" }
          { mode := .default }).1
        { title := "alpha news", description := "", url := "", source := "A", publishedAt := "" }
        { mode := .default }).1).map (fun c => c.related.length) = [1] := by
  have h := addTwice_single_cluster
    { title := "alpha news", description := "", url := "", source := "A", publishedAt := "" }
    { mode := .default } (by decide) (by decide)
  simpa [show normalizeUrlForComparison "" = "" from by decide] using h

/-- Claim C2 as stated is false for records with a non-empty URL: feeding this
record twice yields one cluster whose related-article list is empty — the
exact-URL guard drops the second occurrence instead of appending it as the
claimed single related article. -/
theorem addTwice_nonempty_url_counterexample :
    ((addHeadlineIfUnique
        (addHeadlineIfUnique []
          { title := "alpha news", description := "", url := "example.com/a",
            source := "A", publishedAt := "" }
          { mode := .default }).1
        { title := "alpha news", description := "", url := "example.com/a",
          source := "A", publishedAt := "" }
        { mode := .default }).1).map (fun c => (c.related.length, c.data.title)) =
      [(0, "alpha news")] := by decide

theorem primaryFramePreserved_refl (r : NormalizedHeadline) (c : HeadlineCandidate) :
    primaryFramePreserved r c c :=
  ⟨rfl, rfl, rfl, rfl, fun _ => rfl, fun _ => rfl, fun _ => rfl, fun h => absurd rfl h⟩

theorem mergeIntoExisting_frame (existing : HeadlineCandidate) (r : NormalizedHeadline)
    (e : HeadlineCandidate) : primaryFramePreserved r existing (mergeIntoExisting existing r e) := by
  unfold mergeIntoExisting primaryFramePreserved
  dsimp only
  refine ⟨rfl, rfl, rfl, rfl, ?_, ?_, ?_, ?_⟩
  · intro hk
    rw [if_neg]
    rintro ⟨-, h2⟩
    exact hk h2
  · intro hk
    rw [if_neg]
    rintro ⟨-, h2⟩
    exact hk h2
  · intro hk
    rw [if_neg]
    rintro ⟨-, h2⟩
    exact hk h2
  · intro hdesc
    by_cases hc : r.description ≠ "" ∧ existing.data.description.length < r.description.length
    · exact hc.2
    · rw [if_neg hc] at hdesc
      exact absurd rfl hdesc

theorem scanClusters_frame (e : HeadlineCandidate) (r : NormalizedHeadline) (o : DedupeOptions) :
    ∀ (l l' : List HeadlineCandidate), scanClusters e r o l = some l' →
      ∀ (i : Nat) (c c' : HeadlineCandidate), l.get? i = some c → l'.get? i = some c' →
        primaryFramePreserved r c c' := by
  intro l
  induction l with
  | nil =>
    intro l' h
    simp [scanClusters] at h
  | cons existing rest ih =>
    intro l' h i c c' hc hc'
    unfold scanClusters at h
    split_ifs at h with hdup hguard
    · obtain rfl : existing :: rest = l' := Option.some.inj h
      rw [hc] at hc'
      obtain rfl := Option.some.inj hc'
      exact primaryFramePreserved_refl r c
    · obtain rfl : mergeIntoExisting existing r e :: rest = l' := Option.some.inj h
      cases i with
      | zero =>
        rw [List.get?_cons_zero] at hc hc'
        have h0 := Option.some.inj hc
        have h1 := Option.some.inj hc'
        rw [← h0, ← h1]
        exact mergeIntoExisting_frame existing r e
      | succ n =>
        rw [List.get?_cons_succ] at hc hc'
        rw [hc] at hc'
        obtain rfl := Option.some.inj hc'
        exact primaryFramePreserved_refl r c
    · cases hrest : scanClusters e r o rest with
      | some updated =>
        rw [hrest] at h
        obtain rfl : existing :: updated = l' := Option.some.inj h
        cases i with
        | zero =>
          rw [List.get?_cons_zero] at hc hc'
          have h0 := Option.some.inj hc
          have h1 := Option.some.inj hc'
          rw [← h0, ← h1]
          exact primaryFramePreserved_refl r existing
        | succ n =>
          rw [List.get?_cons_succ] at hc hc'
          exact ih updated hrest n c c' hc hc'
      | none =>
        rw [hrest] at h
        exact absurd h (by simp)

/-- Claim C7: across any `addHeadlineIfUnique` call — whether the incoming
record is dropped, merged into some cluster, or appended as a new cluster —
every pre-existing cluster keeps its primary's title, url, source and
publishedAt unchanged, keeps any non-empty keyword/queryUsed/searchQuery
unchanged, and has its description changed only when the incoming record's
description is strictly longer. -/
theorem addHeadlineIfUnique_preserves_primary (aggregated : List HeadlineCandidate)
    (r : NormalizedHeadline) (o : DedupeOptions) (i : Nat) (c c' : HeadlineCandidate)
    (hc : aggregated.get? i = some c)
    (hc' : ((addHeadlineIfUnique aggregated r o).1).get? i = some c') :
    primaryFramePreserved r c c' := by
  unfold addHeadlineIfUnique at hc'
  dsimp only at hc'
  split_ifs at hc' with hex
  · dsimp only at hc'
    rw [hc] at hc'
    obtain rfl := Option.some.inj hc'
    exact primaryFramePreserved_refl r c
  · cases hscan : scanClusters (createHeadlineCandidate r o) r o aggregated with
    | some updated =>
      rw [hscan] at hc'
      dsimp only at hc'
      exact scanClusters_frame _ _ _ _ _ hscan i c c' hc hc'
    | none =>
      rw [hscan] at hc'
      dsimp only at hc'
      have hi : i < aggregated.length := (List.get?_eq_some.mp hc).1
      rw [List.get?_append hi] at hc'
      rw [hc] at hc'
      obtain rfl := Option.some.inj hc'
      exact primaryFramePreserved_refl r c

theorem addHeadlineIfUnique_preserves_primary_witness :
    primaryFramePreserved
      { title := "alpha news", description := "much longer description", url := "",
        source := "B", publishedAt := "", keyword := "other" }
      (createHeadlineCandidate
        { title := "alpha news", description := "short", url := "", source := "A",
          publishedAt := "", keyword := "k" } { mode := .default })
      (mergeIntoExisting
        (createHeadlineCandidate
          { title := "alpha news", description := "short", url := "", source := "A",
            publishedAt := "", keyword := "k" } { mode := .default })
        { title := "alpha news", description := "much longer description", url := "",
          source := "B", publishedAt := "", keyword := "other" }
        (createHeadlineCandidate
          { title := "alpha news", description := "much longer description", url := "",
            source := "B", publishedAt := "", keyword := "other" } { mode := .default })) :=
  addHeadlineIfUnique_preserves_primary
    [createHeadlineCandidate
      { title := "alpha news", description := "short", url := "", source := "A",
        publishedAt := "", keyword := "k" } { mode := .default }]
    { title := "alpha news", description := "much longer description", url := "",
      source := "B", publishedAt := "", keyword := "other" }
    { mode := .default } 0 _ _ (by decide) (by decide)

theorem mem_insertLe {α : Type} {le : α → α → Bool} {x y : α} {l : List α} :
    y ∈ insertLe le x l ↔ y = x ∨ y ∈ l := by
  induction l with
  | nil => simp [insertLe]
  | cons z zs ih =>
    unfold insertLe
    split_ifs with h
    · simp only [List.mem_cons]
    · simp only [List.mem_cons, ih]
      tauto

theorem length_insertLe {α : Type} (le : α → α → Bool) (x : α) :
    ∀ l : List α, (insertLe le x l).length = l.length + 1 := by
  intro l
  induction l with
  | nil => rfl
  | cons z zs ih =>
    unfold insertLe
    split_ifs with h
    · simp
    · simp [ih]

theorem length_sortByLe {α : Type} (le : α → α → Bool) :
    ∀ l : List α, (sortByLe le l).length = l.length := by
  intro l
  induction l with
  | nil => rfl
  | cons x xs ih =>
    unfold sortByLe
    rw [length_insertLe, ih, List.length_cons]

theorem mem_sortByLe {α : Type} {le : α → α → Bool} {y : α} :
    ∀ {l : List α}, y ∈ sortByLe le l ↔ y ∈ l := by
  intro l
  induction l with
  | nil => simp [sortByLe]
  | cons x xs ih =>
    unfold sortByLe
    rw [mem_insertLe, ih, List.mem_cons]

theorem pairwise_insertLe {α : Type} {le : α → α → Bool}
    (htrans : ∀ a b c, le a b = true → le b c = true → le a c = true)
    (htotal : ∀ a b, le a b = true ∨ le b a = true)
    (x : α) : ∀ {l : List α}, l.Pairwise (fun a b => le a b = true) →
      (insertLe le x l).Pairwise (fun a b => le a b = true) := by
  intro l
  induction l with
  | nil =>
    intro _
    simp [insertLe]
  | cons y ys ih =>
    intro hp
    rw [List.pairwise_cons] at hp
    obtain ⟨hy, hys⟩ := hp
    unfold insertLe
    split_ifs with h
    · rw [List.pairwise_cons]
      refine ⟨?_, List.pairwise_cons.mpr ⟨hy, hys⟩⟩
      intro z hz
      rcases List.mem_cons.mp hz with hzy | hz'
      · rw [hzy]
        exact h
      · exact htrans x y z h (hy z hz')
    · rw [List.pairwise_cons]
      refine ⟨?_, ih hys⟩
      intro z hz
      rcases mem_insertLe.mp hz with hzx | hz'
      · rw [hzx]
        rcases htotal x y with h1 | h1
        · exact absurd h1 h
        · exact h1
      · exact hy z hz'

theorem pairwise_sortByLe {α : Type} {le : α → α → Bool}
    (htrans : ∀ a b c, le a b = true → le b c = true → le a c = true)
    (htotal : ∀ a b, le a b = true ∨ le b a = true) :
    ∀ l : List α, (sortByLe le l).Pairwise (fun a b => le a b = true) := by
  intro l
  induction l with
  | nil => simp [sortByLe]
  | cons x xs ih =>
    unfold sortByLe
    exact pairwise_insertLe htrans htotal x ih

theorem ageLtOpt_trans {x y z : Option ℚ} (h1 : ageLtOpt x y = true)
    (h2 : ageLtOpt y z = true) : ageLtOpt x z = true := by
  cases x with
  | none => simp [ageLtOpt] at h1
  | some a =>
    cases y with
    | none => simp [ageLtOpt] at h2
    | some b =>
      cases z with
      | none => simp [ageLtOpt]
      | some c =>
        simp only [ageLtOpt, decide_eq_true_eq] at h1 h2 ⊢
        exact lt_trans h1 h2

theorem ageLtOpt_eqv {x y : Option ℚ} (h1 : ageLtOpt x y = false)
    (h2 : ageLtOpt y x = false) : x = y := by
  cases x with
  | none =>
    cases y with
    | none => rfl
    | some b => simp [ageLtOpt] at h2
  | some a =>
    cases y with
    | none => simp [ageLtOpt] at h1
    | some b =>
      simp only [ageLtOpt, decide_eq_false_iff_not, not_lt] at h1 h2
      exact congrArg some (le_antisymm h2 h1)

theorem rankLE_iff {a b : ScoredHeadlineCandidate} :
    rankLE a b = true ↔
      (b.ranking.score < a.ranking.score ∨
        (a.ranking.score = b.ranking.score ∧
          (ageLtOpt a.ranking.details.ageHours b.ranking.details.ageHours = true ∨
            (ageLtOpt a.ranking.details.ageHours b.ranking.details.ageHours = false ∧
             ageLtOpt b.ranking.details.ageHours a.ranking.details.ageHours = false ∧
             a.index ≤ b.index)))) := by
  unfold rankLE
  split_ifs with h1 h2 h3 h4
  · simp [h1]
  · simp [h1, ne_of_lt h2]
  · have heq := le_antisymm (not_lt.mp h1) (not_lt.mp h2)
    simp [heq, h3]
  · have heq := le_antisymm (not_lt.mp h1) (not_lt.mp h2)
    simp [h1, h3, h4, heq]
  · have heq := le_antisymm (not_lt.mp h1) (not_lt.mp h2)
    simp [h1, h3, h4, heq]

theorem rankLE_total (a b : ScoredHeadlineCandidate) :
    rankLE a b = true ∨ rankLE b a = true := by
  rcases lt_trichotomy a.ranking.score b.ranking.score with h | h | h
  · exact Or.inr (rankLE_iff.mpr (Or.inl h))
  · cases h3 : ageLtOpt a.ranking.details.ageHours b.ranking.details.ageHours with
    | true => exact Or.inl (rankLE_iff.mpr (Or.inr ⟨h, Or.inl h3⟩))
    | false =>
      cases h4 : ageLtOpt b.ranking.details.ageHours a.ranking.details.ageHours with
      | true => exact Or.inr (rankLE_iff.mpr (Or.inr ⟨h.symm, Or.inl h4⟩))
      | false =>
        rcases Nat.le_total a.index b.index with hi | hi
        · exact Or.inl (rankLE_iff.mpr (Or.inr ⟨h, Or.inr ⟨h3, h4, hi⟩⟩))
        · exact Or.inr (rankLE_iff.mpr (Or.inr ⟨h.symm, Or.inr ⟨h4, h3, hi⟩⟩))
  · exact Or.inl (rankLE_iff.mpr (Or.inl h))

theorem rankLE_trans (a b c : ScoredHeadlineCandidate)
    (h1 : rankLE a b = true) (h2 : rankLE b c = true) : rankLE a c = true := by
  rw [rankLE_iff] at h1 h2 ⊢
  rcases h1 with h1 | ⟨eab, r1⟩
  · rcases h2 with h2 | ⟨ebc, r2⟩
    · exact Or.inl (lt_trans h2 h1)
    · exact Or.inl (ebc ▸ h1)
  · rcases h2 with h2 | ⟨ebc, r2⟩
    · exact Or.inl (eab ▸ h2)
    · refine Or.inr ⟨eab.trans ebc, ?_⟩
      rcases r1 with r1 | ⟨f1, f2, i1⟩
      · rcases r2 with r2 | ⟨g1, g2, i2⟩
        · exact Or.inl (ageLtOpt_trans r1 r2)
        · have he := ageLtOpt_eqv g1 g2
          exact Or.inl (he ▸ r1)
      · have he := ageLtOpt_eqv f1 f2
        rcases r2 with r2 | ⟨g1, g2, i2⟩
        · exact Or.inl (he ▸ r2)
        · exact Or.inr ⟨he ▸ g1, he ▸ g2, le_trans i1 i2⟩

theorem rankLE_score_le {a b : ScoredHeadlineCandidate} (h : rankLE a b = true) :
    b.ranking.score ≤ a.ranking.score := by
  rcases rankLE_iff.mp h with h | ⟨he, -⟩
  · exact le_of_lt h
  · exact le_of_eq he.symm

theorem length_buildHeadlineResponses (l : List RankedHeadlineCandidate) :
    (buildHeadlineResponses l).length = l.length := by
  unfold buildHeadlineResponses
  split_ifs with h
  · simp [h]
  · simp

/-- Claim C3: the handler ranks the full aggregated pool (one ranked entry per
cluster, each scored against the whole pool), truncates to the caller's limit
only afterwards, and the returned array has length at most the limit and is
sorted by descending total score. -/
theorem topRankedHeadlines_spec (now : Int) (candidates : List HeadlineCandidate) (limit : Nat) :
    (topRankedHeadlines now candidates limit).length ≤ limit ∧
    List.Pairwise (fun x y => y.ranking.score ≤ x.ranking.score)
      (topRankedHeadlines now candidates limit) ∧
    (rankHeadlineCandidates now candidates).length = candidates.length ∧
    topRankedHeadlines now candidates limit =
      buildHeadlineResponses ((rankHeadlineCandidates now candidates).take limit) := by
  refine ⟨?_, ?_, ?_, rfl⟩
  · unfold topRankedHeadlines
    rw [length_buildHeadlineResponses, List.length_take]
    exact min_le_left _ _
  · have hp : List.Pairwise
        (fun (x y : RankedHeadlineCandidate) => y.ranking.score ≤ x.ranking.score)
        (rankHeadlineCandidates now candidates) := by
      unfold rankHeadlineCandidates
      split_ifs with h0
      · exact List.Pairwise.nil
      · rw [List.pairwise_map]
        exact (pairwise_sortByLe rankLE_trans rankLE_total _).imp
          (fun hab => rankLE_score_le hab)
    unfold topRankedHeadlines buildHeadlineResponses
    split_ifs with h
    · exact List.Pairwise.nil
    · rw [List.pairwise_map]
      exact List.Pairwise.sublist (List.take_sublist _ _) hp
  · unfold rankHeadlineCandidates
    split_ifs with h0
    · simp [h0]
    · rw [List.length_map, length_sortByLe]
      unfold scoredCandidates
      rw [List.length_map, List.enum_length]

/-- Claim C4 (amended): ties in total score break by ascending age where an
unknown (unparseable or absent) age counts as positive infinity — so a
candidate with any parseable age precedes one with none — and only when the
two normalized ages are equal (or both unknown) does the original arrival
index decide.  Stated as: the sorted scored list is pairwise ordered by
descending score, then this age comparison, then arrival index. -/
theorem rank_tiebreak_order (now : Int) (candidates : List HeadlineCandidate) :
    List.Pairwise (fun a b : ScoredHeadlineCandidate =>
        b.ranking.score < a.ranking.score ∨
        (a.ranking.score = b.ranking.score ∧
          (ageLtOpt a.ranking.details.ageHours b.ranking.details.ageHours = true ∨
            (ageLtOpt a.ranking.details.ageHours b.ranking.details.ageHours = false ∧
             ageLtOpt b.ranking.details.ageHours a.ranking.details.ageHours = false ∧
             a.index ≤ b.index))))
      (sortByLe rankLE (scoredCandidates now candidates)) :=
  (pairwise_sortByLe rankLE_trans rankLE_total _).imp (fun h => rankLE_iff.mp h)

/-- Claim C4 as stated is false when exactly one of two equal-scored clusters
has a parseable age: the first-arriving cluster here has no parseable age, the
second (arrival index 1) is 100 hours old, both score 2/5 — yet the ranked
output puts the aged cluster first instead of following arrival order, because
the source normalizes an unknown age to positive infinity in the tiebreak. -/
theorem rank_tiebreak_counterexample :
    (rankHeadlineCandidates 360000000
      [createHeadlineCandidate
        { title := "alpha one", description := "", url := "", source := "s1", publishedAt := "" }
        { mode := .default },
       createHeadlineCandidate
        { title := "beta two", description := "", url := "", source := "s2",
          publishedAt := "1970-01-01T00:00:00Z" } { mode := .default }]).map
      (fun e => (e.candidate.data.title, e.ranking.score, e.ranking.details.ageHours)) =
      [("beta two", 2/5, some 100), ("alpha one", 2/5, none)] := by decide

theorem recencyFormula_bounds (x : ℚ) :
    0 ≤ 1 - min (max 0 x) 72 / 72 ∧ 1 - min (max 0 x) 72 / 72 ≤ 1 := by
  constructor
  · have h72 : min (max 0 x) 72 ≤ 72 := min_le_right _ _
    have hd : min (max 0 x) 72 / 72 ≤ 1 := by
      rw [div_le_one (by norm_num : (0:ℚ) < 72)]
      exact h72
    linarith
  · have h0 : (0:ℚ) ≤ min (max 0 x) 72 := le_min (le_max_left _ _) (by norm_num)
    have hd : 0 ≤ min (max 0 x) 72 / 72 := div_nonneg h0 (by norm_num)
    linarith

theorem computeRecencyScore_bounds (now : Int) (p : String) :
    0 ≤ (computeRecencyScore now p).1 ∧ (computeRecencyScore now p).1 ≤ 1 := by
  unfold computeRecencyScore
  split_ifs with h
  · simp
  · cases hp : parseDateMs p with
    | none => simp
    | some parsed =>
      dsimp only
      exact recencyFormula_bounds _

theorem computeSourceDiversityScore_bounds (occ : Nat) :
    0 ≤ computeSourceDiversityScore occ ∧ computeSourceDiversityScore occ ≤ 1 := by
  unfold computeSourceDiversityScore
  split_ifs with h
  · norm_num
  · have h1 : (1:ℚ) ≤ (occ : ℚ) := by
      have : 1 ≤ occ := Nat.one_le_iff_ne_zero.mpr h
      exact_mod_cast this
    constructor
    · positivity
    · rw [div_le_one (by linarith)]
      exact h1

theorem computeTopicCoverageScore_bounds (ts : List String) (f : String → Nat) :
    0 ≤ computeTopicCoverageScore ts f ∧ computeTopicCoverageScore ts f ≤ 1 := by
  unfold computeTopicCoverageScore
  split_ifs with h
  · norm_num
  · constructor
    · positivity
    · rw [div_le_one]
      · have hc : ts.countP (fun t => decide (f t ≤ 1)) ≤ ts.length := List.countP_le_length _
        have hm : ts.length ≤ max 1 ts.length := le_max_right _ _
        exact_mod_cast le_trans hc hm
      · have hm : 1 ≤ max 1 ts.length := le_max_left _ _
        have : (1:ℚ) ≤ ((max 1 ts.length : Nat) : ℚ) := by exact_mod_cast hm
        linarith

theorem length_le_foldl_insertUnique (xs : List RelatedArticle) (f : RelatedArticle → String) :
    ∀ init : List String, init.length ≤ (xs.foldl (fun acc a => insertUnique acc (f a)) init).length := by
  induction xs with
  | nil =>
    intro init
    exact le_refl _
  | cons x rest ih =>
    intro init
    refine le_trans ?_ (ih (insertUnique init (f x)))
    unfold insertUnique
    split_ifs
    · exact le_refl _
    · simp

theorem supportPiece_bounds (n fullScore : Nat) (hn : 1 ≤ n) :
    0 ≤ (if fullScore ≤ 1 then (if 1 < n then (1:ℚ) else 0)
         else min 1 (((n : ℚ) - 1) / ((fullScore : ℚ) - 1))) ∧
    (if fullScore ≤ 1 then (if 1 < n then (1:ℚ) else 0)
     else min 1 (((n : ℚ) - 1) / ((fullScore : ℚ) - 1))) ≤ 1 := by
  split_ifs with h1 h2
  · norm_num
  · norm_num
  · have hf : (1:ℚ) < (fullScore : ℚ) := by
      have h2 : 1 < fullScore := Nat.lt_of_not_le h1
      exact_mod_cast h2
    have hq : (0:ℚ) ≤ ((n : ℚ) - 1) / ((fullScore : ℚ) - 1) := by
      apply div_nonneg
      · have : (1:ℚ) ≤ (n : ℚ) := by exact_mod_cast hn
        linarith
      · linarith
    exact ⟨le_min zero_le_one hq, min_le_left _ _⟩

theorem computeClusterSupportScore_bounds (c : HeadlineCandidate) :
    0 ≤ (computeClusterSupportScore c).1 ∧ (computeClusterSupportScore c).1 ≤ 1 := by
  have hinit : (insertUnique [] (sourceKeyOfString c.data.source)).length = 1 := by
    simp [insertUnique]
  have hsrc : 1 ≤ (c.related.foldl (fun acc a => insertUnique acc (sourceKeyOfString a.source))
      (insertUnique [] (sourceKeyOfString c.data.source))).length := by
    have h := length_le_foldl_insertUnique c.related (fun a => sourceKeyOfString a.source)
      (insertUnique [] (sourceKeyOfString c.data.source))
    rw [hinit] at h
    exact h
  unfold computeClusterSupportScore
  dsimp only
  have hp1 := supportPiece_bounds (max 1 (c.related.length + 1)) CLUSTER_SIZE_FULL_SCORE
    (le_max_left _ _)
  have hp2 := supportPiece_bounds
    ((c.related.foldl (fun acc a => insertUnique acc (sourceKeyOfString a.source))
      (insertUnique [] (sourceKeyOfString c.data.source))).length) CLUSTER_SOURCES_FULL_SCORE hsrc
  constructor
  · exact le_min zero_le_one (div_nonneg (by linarith [hp1.1, hp2.1]) (by norm_num))
  · exact min_le_left _ _

theorem scoreCandidate_bounds (now : Int) (cands : List HeadlineCandidate) (c : HeadlineCandidate) :
    0 ≤ (scoreCandidate now cands c).components.recency ∧
    (scoreCandidate now cands c).components.recency ≤ 1 ∧
    0 ≤ (scoreCandidate now cands c).components.sourceDiversity ∧
    (scoreCandidate now cands c).components.sourceDiversity ≤ 1 ∧
    0 ≤ (scoreCandidate now cands c).components.topicCoverage ∧
    (scoreCandidate now cands c).components.topicCoverage ≤ 1 ∧
    0 ≤ (scoreCandidate now cands c).components.clusterSupport ∧
    (scoreCandidate now cands c).components.clusterSupport ≤ 1 ∧
    0 ≤ (scoreCandidate now cands c).score ∧ (scoreCandidate now cands c).score ≤ 11/10 := by
  have hr := computeRecencyScore_bounds now c.data.publishedAt
  have hs := computeSourceDiversityScore_bounds
    (max 1 (sourceFreq cands (sourceKeyOfString c.data.source)))
  have ht := computeTopicCoverageScore_bounds c.tokenSet (tokenFreq cands)
  have hcl := computeClusterSupportScore_bounds c
  unfold scoreCandidate
  dsimp only
  refine ⟨hr.1, hr.2, hs.1, hs.2, ht.1, ht.2, hcl.1, hcl.2, ?_, ?_⟩
  · simp only [RANKING_RECENCY_WEIGHT, RANKING_SOURCE_WEIGHT, RANKING_TOPIC_WEIGHT,
      RANKING_CLUSTER_WEIGHT]
    linarith [hr.1, hs.1, ht.1, hcl.1]
  · simp only [RANKING_RECENCY_WEIGHT, RANKING_SOURCE_WEIGHT, RANKING_TOPIC_WEIGHT,
      RANKING_CLUSTER_WEIGHT]
    linarith [hr.1, hr.2, hs.1, hs.2, ht.1, ht.2, hcl.1, hcl.2]

theorem mem_rank_decomp {now : Int} {cands : List HeadlineCandidate} {e : RankedHeadlineCandidate}
    (he : e ∈ rankHeadlineCandidates now cands) :
    ∃ c, e.ranking = scoreCandidate now cands c := by
  unfold rankHeadlineCandidates at he
  split_ifs at he with h0
  · simp at he
  · rcases List.mem_map.mp he with ⟨sc, hsc, rfl⟩
    have hmem : sc ∈ scoredCandidates now cands := mem_sortByLe.mp hsc
    unfold scoredCandidates at hmem
    rcases List.mem_map.mp hmem with ⟨p, hp, rfl⟩
    exact ⟨p.2, rfl⟩

/-- Claim C10: every ranked entry's four components (recency, sourceDiversity,
topicCoverage, clusterSupport) lie in [0, 1] and its total score — the
weighted sum with weights 45/100, 20/100, 20/100, 25/100 — lies in
[0, 11/10]; in particular the score can exceed 1 (the weights sum to 11/10),
witnessed by a fully corroborated fresh cluster that scores exactly 11/10. -/
theorem ranking_component_bounds :
    (∀ (now : Int) (candidates : List HeadlineCandidate),
        (rankHeadlineCandidates now candidates).all scoreBoundsCheck = true) ∧
    (rankHeadlineCandidates 345600000 [demoSupportCandidate]).map (fun e => e.ranking.score) =
      [11/10] ∧ (1:ℚ) < 11/10 := by
  refine ⟨?_, by decide, by decide⟩
  intro now cands
  rw [List.all_eq_true]
  intro e he
  rcases mem_rank_decomp he with ⟨c, hcEq⟩
  unfold scoreBoundsCheck
  rw [decide_eq_true_iff, hcEq]
  exact scoreCandidate_bounds now cands c
